import Mathlib

/-!
Shallow embedding of `app.py` of the word2pdf Flask service, together with
proofs about the upload/convert pipeline, the download endpoint and the
cleanup sweep.

The filesystem is modelled as an association list from paths to file sizes.
External tools (pandoc, libreoffice, unoconv, the python-docx/reportlab
fallback) are modelled through an environment that says, for each tool,
whether it is installed and what a subprocess invocation does to the
filesystem and returns.  Subprocess invocations are recorded in a trace so
that properties about command lines and timeouts can be stated.
-/

namespace WordToPdf

/-! ### Filesystem model

A filesystem is a finite map from path strings to file sizes (bytes).
`fsGet` is lookup, `fsSet` models writing/overwriting a file (`file.save`,
a tool writing its output), `fsRemove` models `os.remove`, `fsRename`
models `os.rename`. -/

/-- A filesystem: association list from path to size in bytes. -/
def FS : Type := List (String × Nat)

/-- Size of the file at path `p`, if present. -/
def fsGet (fs : FS) (p : String) : Option Nat :=
  (List.find? (fun e => e.1 == p) fs).map Prod.snd

/-- `os.path.exists`. -/
def fsExists (fs : FS) (p : String) : Bool :=
  (fsGet fs p).isSome

/-- `os.path.getsize`, defaulting to 0 when the file is absent (the code
only calls it after an existence check or a rename). -/
def fsGetD (fs : FS) (p : String) : Nat :=
  (fsGet fs p).getD 0

/-- `os.remove p` (no-op when absent; the code guards its calls). -/
def fsRemove (fs : FS) (p : String) : FS :=
  List.filter (fun e => !(e.1 == p)) fs

/-- Write (create or overwrite) the file at `p` with size `n`. -/
def fsSet (fs : FS) (p : String) (n : Nat) : FS :=
  (p, n) :: fsRemove fs p

/-- `os.rename src dst` (the code only calls it when `src` exists). -/
def fsRename (fs : FS) (src dst : String) : FS :=
  match fsGet fs src with
  | some n => fsSet (fsRemove fs src) dst n
  | none => fs

theorem fsGet_cons (e : String × Nat) (t : List (String × Nat)) (q : String) :
    fsGet (e :: t) q = if e.1 = q then some e.2 else fsGet t q := by
  simp only [fsGet, List.find?]
  by_cases h : e.1 = q
  · have hb : (e.1 == q) = true := by simp [h]
    rw [hb]; simp [h]
  · have hb : (e.1 == q) = false := by simp [h]
    rw [hb]; simp [h]

theorem fsGet_fsRemove (fs : FS) (p q : String) :
    fsGet (fsRemove fs p) q = if q = p then none else fsGet fs q := by
  induction fs with
  | nil => simp [fsGet, fsRemove]
  | cons e t ih =>
    simp only [fsRemove] at ih ⊢
    rw [List.filter_cons]
    by_cases hep : e.1 = p
    · rw [if_neg (by simp [hep])]
      rw [ih]
      by_cases hqp : q = p
      · simp [hqp]
      · have heq : ¬ e.1 = q := fun h => hqp (h.symm.trans hep)
        simp [hqp, fsGet_cons, heq]
    · rw [if_pos (by simp [hep])]
      rw [fsGet_cons, fsGet_cons, ih]
      by_cases heq : e.1 = q
      · have hqp : ¬ q = p := fun h => hep (heq.trans h)
        simp [heq, hqp]
      · simp [heq]

theorem fsGet_fsSet (fs : FS) (p q : String) (n : Nat) :
    fsGet (fsSet fs p n) q = if q = p then some n else fsGet fs q := by
  simp only [fsSet, fsGet_cons]
  rw [fsGet_fsRemove]
  by_cases hqp : q = p
  · simp [hqp]
  · have hpq : ¬ p = q := fun h => hqp h.symm
    simp [hqp, hpq]

theorem fsExists_fsRemove_self (fs : FS) (p : String) :
    fsExists (fsRemove fs p) p = false := by
  simp [fsExists, fsGet_fsRemove]

theorem fsGet_fsRemove_ne (fs : FS) (p q : String) (h : q ≠ p) :
    fsGet (fsRemove fs p) q = fsGet fs q := by
  simp [fsGet_fsRemove, h]

/-! ### Python string and path helpers -/

/-- `os.path.join a b` for the relative second components this app
produces (a leading-slash `b` never arises: every joined name starts with
a digit, a `-`, or a non-slash basename character). -/
def osPathJoin (a b : String) : String :=
  a ++ "/" ++ b

/-- Index of the last occurrence of `c`, if any. -/
def lastIdxOf (c : Char) : List Char → Option Nat
  | [] => none
  | x :: xs =>
    match lastIdxOf c xs with
    | some i => some (i + 1)
    | none => if x = c then some 0 else none

/-- `os.path.splitext` on the character list of a path: split at the last
dot, provided that dot lies after the last slash and the basename has at
least one non-dot character before it (so dotfiles like `.docx` have no
extension). Mirrors CPython `genericpath._splitext`. -/
def splitextChars (cs : List Char) : List Char × List Char :=
  match lastIdxOf '.' cs with
  | none => (cs, [])
  | some d =>
    let s : Nat :=
      match lastIdxOf '/' cs with
      | some i => i + 1
      | none => 0
    if s ≤ d ∧ (List.take (d - s) (List.drop s cs)).any (fun c => c ≠ '.') then
      (List.take d cs, List.drop d cs)
    else
      (cs, [])

/-- `os.path.splitext` on strings: `(root, ext)`. -/
def splitextStr (s : String) : String × String :=
  let p := splitextChars s.data
  (String.mk p.1, String.mk p.2)

/-- `os.path.dirname` (POSIX). -/
def pyDirname (s : String) : String :=
  match lastIdxOf '/' s.data with
  | none => ""
  | some i =>
    let head := List.take (i + 1) s.data
    if head.all (fun c => c = '/') then String.mk head
    else String.mk (List.reverse (List.dropWhile (fun c => c = '/') head.reverse))

/-- `os.path.basename` (POSIX). -/
def pyBasename (s : String) : String :=
  match lastIdxOf '/' s.data with
  | none => s
  | some i => String.mk (List.drop (i + 1) s.data)

/-- Split off the chunk before the first occurrence of `sep`, when present. -/
def splitFirst (sep : Char) : List Char → Option (List Char × List Char)
  | [] => none
  | c :: cs =>
    if c = sep then some ([], cs)
    else (splitFirst sep cs).map (fun p => (c :: p.1, p.2))

/-- Python `s.split(sep, maxsplit)` on character lists: split at most
`n` times at `sep`. -/
def pySplitMax (sep : Char) : Nat → List Char → List (List Char)
  | 0, cs => [cs]
  | n + 1, cs =>
    match splitFirst sep cs with
    | none => [cs]
    | some (a, b) => a :: pySplitMax sep n b

/-- `filename.split('_')[0]`: the prefix before the first underscore
(the whole name when there is none). -/
def firstField (cs : List Char) : List Char :=
  List.takeWhile (fun c => c ≠ '_') cs

/-- Python `sep.join(l)`. -/
def pyJoin (sep : String) : List String → String
  | [] => ""
  | [x] => x
  | x :: y :: t => x ++ sep ++ pyJoin sep (y :: t)

/-- ASCII whitespace accepted by Python `int()` around the digits. -/
def isPySpace (c : Char) : Bool :=
  c = ' ' || c = '\t' || c = '\n' || c = '\r' || c = '\x0b' || c = '\x0c'

/-- Value of a nonempty all-digit string, else `none`. -/
def digitsVal (ds : List Char) : Option Nat :=
  if ds.isEmpty then none
  else if ds.all Char.isDigit then
    some (ds.foldl (fun a c => a * 10 + (c.toNat - 48)) 0)
  else none

/-- Python `int(s)` on a string with no underscores: strip surrounding
whitespace, optional sign, then a nonempty run of decimal digits. -/
def pyIntParse (cs : List Char) : Option Int :=
  let t := List.reverse (List.dropWhile isPySpace (List.reverse (List.dropWhile isPySpace cs)))
  match t with
  | '-' :: ds => (digitsVal ds).map (fun n => -(n : Int))
  | '+' :: ds => (digitsVal ds).map (fun n => (n : Int))
  | ds => (digitsVal ds).map (fun n => (n : Int))

/-- `file.filename.lower().endswith(('.docx', '.doc'))` (ASCII lowering,
which covers the extensions being tested). -/
def allowedExt (f : String) : Bool :=
  List.isSuffixOf ".docx".data (f.data.map Char.toLower) ||
    List.isSuffixOf ".doc".data (f.data.map Char.toLower)

/-! ### External tools and converters

`subprocess.run(cmd, capture_output=True, text=True, timeout=120)` is
modelled by an environment function from the command line and the current
filesystem to a `ToolRun`: the filesystem after the subprocess has run and
either `(returncode, stderr)` or an exception message (timeout, OS error).
Every invocation is recorded as a `SubprocessCall`. -/

/-- One `subprocess.run` invocation: the command line and the `timeout=`
argument in seconds. -/
structure SubprocessCall where
  cmd : List String
  timeoutSec : Nat
deriving DecidableEq

/-- Outcome of running an external command: the filesystem afterwards and
either `(returncode, stderr)` or the message of a raised exception. -/
structure ToolRun where
  fsAfter : FS
  result : Except String (Int × String)

/-- How a converter function ends: a returned boolean or a raised
exception carrying its message. -/
inductive MOut where
  | ret (b : Bool)
  | exn (msg : String)
deriving DecidableEq

/-- `true` exactly for a converter run that returned `True`. -/
def MOut.isSucc : MOut → Bool
  | .ret true => true
  | _ => false

/-- Result of one converter function: filesystem afterwards, subprocess
invocations made, and how it ended. -/
structure CRes where
  fs : FS
  calls : List SubprocessCall
  out : MOut

/-- The external world: request-time values and the behaviour of each
external tool. -/
structure Env where
  /-- `int(time.time())` at upload time. -/
  timestamp : Int
  /-- `str(uuid.uuid4())` at upload time. -/
  uuid : String
  /-- `shutil.which('pandoc')` is not `None`. -/
  pandocInstalled : Bool
  /-- Behaviour of the pandoc subprocess on a command line and filesystem. -/
  pandocRun : List String → FS → ToolRun
  /-- `find_libreoffice_executable()`: the executable found, if any. -/
  libreofficeExec : Option String
  /-- Behaviour of the libreoffice subprocess. -/
  libreofficeRun : List String → FS → ToolRun
  /-- `shutil.which('unoconv')` is not `None`. -/
  unoconvInstalled : Bool
  /-- Behaviour of the unoconv subprocess. -/
  unoconvRun : List String → FS → ToolRun
  /-- python-docx and reportlab import successfully. -/
  docxLibsInstalled : Bool
  /-- Behaviour of `Document(input)` + `pdf.build(content)`: filesystem
  afterwards, plus the message of a raised exception if one occurred. -/
  docxBuild : FS → String → String → FS × Option String

/-- `convert_with_pandoc` of `app.py`. -/
def convert_with_pandoc (env : Env) (fs : FS) (input_path output_path : String) : CRes :=
  if env.pandocInstalled = false then
    ⟨fs, [], .exn ("Pandoc conversion error: Pandoc not found. Install with " ++
      "'apt-get install pandoc texlive-latex-base texlive-fonts-recommended'")⟩
  else
    let cmd := ["pandoc", input_path, "--pdf-engine=xelatex", "-o", output_path]
    let run := env.pandocRun cmd fs
    match run.result with
    | .error m => ⟨run.fsAfter, [⟨cmd, 120⟩], .exn ("Pandoc conversion error: " ++ m)⟩
    | .ok (rc, stderr) =>
      if rc ≠ 0 then
        ⟨run.fsAfter, [⟨cmd, 120⟩], .exn ("Pandoc conversion error: Pandoc returned error code "
          ++ toString rc ++ ": " ++ stderr)⟩
      else
        ⟨run.fsAfter, [⟨cmd, 120⟩],
          .ret (fsExists run.fsAfter output_path && decide (0 < fsGetD run.fsAfter output_path))⟩

/-- `convert_with_libreoffice` of `app.py` (with
`find_libreoffice_executable` inlined as `env.libreofficeExec`; a
`FileNotFoundError` escapes unwrapped, any other exception is wrapped in
"LibreOffice conversion error: "). -/
def convert_with_libreoffice (env : Env) (fs : FS) (input_path output_path : String) : CRes :=
  let output_dir := pyDirname output_path
  match env.libreofficeExec with
  | none => ⟨fs, [], .exn "LibreOffice executable not found. Please install LibreOffice."⟩
  | some exe =>
    let cmd := [exe, "--headless", "--norestore", "--invisible", "--convert-to",
      "pdf:writer_pdf_Export", "--outdir", output_dir, input_path]
    let run := env.libreofficeRun cmd fs
    match run.result with
    | .error m => ⟨run.fsAfter, [⟨cmd, 120⟩], .exn ("LibreOffice conversion error: " ++ m)⟩
    | .ok (rc, stderr) =>
      if rc ≠ 0 then
        ⟨run.fsAfter, [⟨cmd, 120⟩],
          .exn ("LibreOffice conversion error: LibreOffice returned error code "
            ++ toString rc ++ ": " ++ stderr)⟩
      else
        let fs1 := run.fsAfter
        let base_name_no_ext := (splitextStr (pyBasename input_path)).1
        let temp_output := osPathJoin output_dir (base_name_no_ext ++ ".pdf")
        if fsExists fs1 temp_output ∧ temp_output ≠ output_path then
          let fs2 := fsRename fs1 temp_output output_path
          ⟨fs2, [⟨cmd, 120⟩], .ret (decide (0 < fsGetD fs2 output_path))⟩
        else if fsExists fs1 output_path then
          ⟨fs1, [⟨cmd, 120⟩], .ret (decide (0 < fsGetD fs1 output_path))⟩
        else
          ⟨fs1, [⟨cmd, 120⟩], .exn "Conversion completed but output file not found"⟩

/-- `convert_with_unoconv` of `app.py`. -/
def convert_with_unoconv (env : Env) (fs : FS) (input_path output_path : String) : CRes :=
  if env.unoconvInstalled = false then
    ⟨fs, [], .exn ("unoconv conversion error: unoconv not found. Install with " ++
      "'pip install unoconv' or 'apt-get install unoconv'")⟩
  else
    let cmd := ["unoconv", "-f", "pdf", "--format=pdf", "-eSelectPdfVersion=1", "-o",
      output_path, input_path]
    let run := env.unoconvRun cmd fs
    match run.result with
    | .error m => ⟨run.fsAfter, [⟨cmd, 120⟩], .exn ("unoconv conversion error: " ++ m)⟩
    | .ok (rc, stderr) =>
      if rc ≠ 0 then
        ⟨run.fsAfter, [⟨cmd, 120⟩], .exn ("unoconv conversion error: unoconv returned error code "
          ++ toString rc ++ ": " ++ stderr)⟩
      else
        ⟨run.fsAfter, [⟨cmd, 120⟩],
          .ret (fsExists run.fsAfter output_path && decide (0 < fsGetD run.fsAfter output_path))⟩

/-- `convert_with_python_docx` of `app.py` (no subprocess; the in-process
docx reading and PDF building is the environment's `docxBuild`). -/
def convert_with_python_docx (env : Env) (fs : FS) (input_path output_path : String) : CRes :=
  if env.docxLibsInstalled = false then
    ⟨fs, [], .exn "Required libraries not installed. Run 'pip install python-docx reportlab'"⟩
  else
    let r := env.docxBuild fs input_path output_path
    match r.2 with
    | some m => ⟨r.1, [], .exn ("python-docx conversion error: " ++ m)⟩
    | none => ⟨r.1, [], .ret (fsExists r.1 output_path && decide (0 < fsGetD r.1 output_path))⟩

/-- A conversion method as stored in `conversion_methods`. -/
def Method : Type := Env → FS → String → String → CRes

/-- The `conversion_methods` list of `convert_file`, in source order. -/
def conversion_methods : List (String × Method) :=
  [("pandoc", convert_with_pandoc),
   ("libreoffice", convert_with_libreoffice),
   ("unoconv", convert_with_unoconv),
   ("python-docx-pypdf", convert_with_python_docx)]

/-! ### The ordered-retry loop of `convert_file` (lines 69-79) -/

/-- State after the `for method_name, method_func in conversion_methods`
loop: filesystem, recorded subprocess calls, the accumulated
`error_messages` (in append order), the final `conversion_success`, and a
trace of the attempted converters with how each run ended. -/
structure LoopRes where
  fs : FS
  calls : List SubprocessCall
  errors : List String
  success : Bool
  attempted : List (String × MOut)

/-- The loop body of `convert_file`: try each method in order; a `True`
return breaks out; a `False` return moves on silently; an exception
appends `"{name} conversion failed: {e}"` to `error_messages` and moves
on. -/
def runMethods (env : Env) (input_path output_path : String) :
    List (String × Method) → FS → LoopRes
  | [], fs => ⟨fs, [], [], false, []⟩
  | (name, m) :: rest, fs =>
    let r := m env fs input_path output_path
    match r.out with
    | .ret true => ⟨r.fs, r.calls, [], true, [(name, .ret true)]⟩
    | .ret false =>
      let l := runMethods env input_path output_path rest r.fs
      ⟨l.fs, r.calls ++ l.calls, l.errors, l.success, (name, .ret false) :: l.attempted⟩
    | .exn msg =>
      let l := runMethods env input_path output_path rest r.fs
      ⟨l.fs, r.calls ++ l.calls, (name ++ " conversion failed: " ++ msg) :: l.errors,
        l.success, (name, .exn msg) :: l.attempted⟩

/-! ### The `/convert` handler -/

/-- An upload request as the handler sees it: whether `'file' in
request.files`, the submitted `file.filename`, and the uploaded content's
size in bytes. -/
structure Request where
  hasFilePart : Bool
  filename : String
  content : Nat

/-- Body of the handler's JSON response. -/
inductive CBody where
  | err (msg : String)
  | success (filename download_url : String)
deriving DecidableEq

/-- Observable outcome of the `/convert` handler: HTTP status, JSON body,
final filesystem, subprocess calls made, converters attempted, and the
path the upload was saved to (when one was). -/
structure HandlerRes where
  status : Nat
  body : CBody
  fs : FS
  calls : List SubprocessCall
  attempted : List (String × MOut)
  savedInput : Option String
  outputName : Option String

/-- `file_id = f"{timestamp}_{unique_id}"`. -/
def fileId (env : Env) : String :=
  toString env.timestamp ++ "_" ++ env.uuid

/-- `input_filename = f"{file_id}_{file.filename}"`. -/
def inputFilename (env : Env) (f : String) : String :=
  fileId env ++ "_" ++ f

/-- `output_filename = f"{file_id}_{os.path.splitext(file.filename)[0]}.pdf"`. -/
def outputFilename (env : Env) (f : String) : String :=
  fileId env ++ "_" ++ (splitextStr f).1 ++ ".pdf"

/-- The `/convert` handler `convert_file` of `app.py`. -/
def convert_file (env : Env) (req : Request) (fs0 : FS) : HandlerRes :=
  if req.hasFilePart = false then
    ⟨400, .err "No file part", fs0, [], [], none, none⟩
  else if req.filename = "" then
    ⟨400, .err "No selected file", fs0, [], [], none, none⟩
  else if allowedExt req.filename then
    let input_path := osPathJoin "uploads" (inputFilename env req.filename)
    let fs1 := fsSet fs0 input_path req.content
    let output_filename := outputFilename env req.filename
    let output_path := osPathJoin "outputs" output_filename
    let l := runMethods env input_path output_path conversion_methods fs1
    if l.success then
      ⟨200, .success ((splitextStr req.filename).1 ++ ".pdf") ("/download/" ++ output_filename),
        fsRemove l.fs input_path, l.calls, l.attempted, some input_path, some output_filename⟩
    else
      ⟨500, .err ("All conversion methods failed: " ++ pyJoin " | " l.errors),
        (if fsExists l.fs input_path then fsRemove l.fs input_path else l.fs),
        l.calls, l.attempted, some input_path, some output_filename⟩
  else
    ⟨400, .err "Invalid file format. Please upload a Word document (.doc or .docx)",
      fs0, [], [], none, none⟩

/-! ### The `/download` handler -/

/-- Outcome of the `/download/<filename>` handler: a 404 JSON error, a
file served as an attachment under a download name, or an unhandled
`IndexError` from `filename.split('_', 2)[2]` (fewer than two
underscores). -/
inductive DownloadRes where
  | notFound
  | served (path download_name : String)
  | indexError
deriving DecidableEq

/-- The `/download/<filename>` handler `download_file` of `app.py`.
`fs` is the filesystem restricted to the relevant paths; the Flask route
converter guarantees `filename` contains no slash. -/
def download_file (fs : FS) (filename : String) : DownloadRes :=
  let file_path := osPathJoin "outputs" filename
  if fsExists fs file_path = false then .notFound
  else
    match List.get? (pySplitMax '_' 2 filename.data) 2 with
    | some dn => .served file_path (String.mk dn)
    | none => .indexError

/-! ### The `/cleanup` handler -/

/-- Whether the sweep deletes a file of this name at threshold `thr`
(seconds, `time.time() - 24*60*60`): its first `_`-separated field parses
as an integer below the threshold. -/
def sweepDeletes (thr : ℚ) (name : String) : Bool :=
  match pyIntParse (firstField name.data) with
  | some t => decide ((t : ℚ) < thr)
  | none => false

/-- One folder's sweep: walk the directory listing, delete matching
files, count deletions, skip files whose first field does not parse. -/
def cleanupFolder (thr : ℚ) : List String → List String × Nat
  | [] => ([], 0)
  | name :: rest =>
    let r := cleanupFolder thr rest
    match pyIntParse (firstField name.data) with
    | some t => if (t : ℚ) < thr then (r.1, r.2 + 1) else (name :: r.1, r.2)
    | none => (name :: r.1, r.2)

/-- The `/cleanup` handler of `app.py`: sweep the uploads and outputs
folder listings with threshold `time.time() - 24*60*60` and return the
remaining listings and the reported `deleted_count`. -/
def cleanup (now : ℚ) (uploads outputs : List String) :
    (List String × List String) × Nat :=
  let thr := now - (24 * 60 * 60)
  let u := cleanupFolder thr uploads
  let o := cleanupFolder thr outputs
  ((u.1, o.1), u.2 + o.2)

/-! ### Lemmas about the retry loop -/

/-- The `error_messages` entry contributed by one attempted converter:
only an attempt that raised an exception contributes one. -/
def convErrMsg (p : String × MOut) : Option String :=
  match p.2 with
  | .exn m => some (p.1 ++ " conversion failed: " ++ m)
  | .ret _ => none

theorem mem_dropLast_cons {α : Type _} (p x : α) (l : List α)
    (h : p ∈ (x :: l).dropLast) : p = x ∨ p ∈ l.dropLast := by
  cases l with
  | nil => simp [List.dropLast] at h
  | cons y t =>
    have he : (x :: y :: t).dropLast = x :: (y :: t).dropLast := rfl
    rw [he] at h
    simpa using h

theorem runMethods_names (env : Env) (ip op : String) (ms : List (String × Method)) :
    ∀ fs : FS, ((runMethods env ip op ms fs).attempted.map Prod.fst) <+: ms.map Prod.fst := by
  induction ms with
  | nil => intro fs; exact ⟨[], by simp [runMethods]⟩
  | cons hd tl ih =>
    intro fs
    obtain ⟨name, m⟩ := hd
    simp only [runMethods]
    cases hout : (m env fs ip op).out with
    | ret b =>
      cases b
      · obtain ⟨t, ht⟩ := ih (m env fs ip op).fs
        exact ⟨t, by simp [hout, ht]⟩
      · exact ⟨List.map Prod.fst tl, by simp [hout]⟩
    | exn msg =>
      obtain ⟨t, ht⟩ := ih (m env fs ip op).fs
      exact ⟨t, by simp [hout, ht]⟩

theorem runMethods_dropLast (env : Env) (ip op : String) (ms : List (String × Method)) :
    ∀ fs : FS, ∀ p ∈ (runMethods env ip op ms fs).attempted.dropLast, p.2.isSucc = false := by
  induction ms with
  | nil => intro fs; simp [runMethods]
  | cons hd tl ih =>
    intro fs
    obtain ⟨name, m⟩ := hd
    simp only [runMethods]
    cases hout : (m env fs ip op).out with
    | ret b =>
      cases b
      · simp only [hout]
        intro p hp
        rcases mem_dropLast_cons p _ _ hp with h | h
        · rw [h]; rfl
        · exact ih _ p h
      · simp [hout]
    | exn msg =>
      simp only [hout]
      intro p hp
      rcases mem_dropLast_cons p _ _ hp with h | h
      · rw [h]; rfl
      · exact ih _ p h

theorem runMethods_success (env : Env) (ip op : String) (ms : List (String × Method)) :
    ∀ fs : FS, (runMethods env ip op ms fs).success =
      (runMethods env ip op ms fs).attempted.any (fun p => p.2.isSucc) := by
  induction ms with
  | nil => intro fs; simp [runMethods]
  | cons hd tl ih =>
    intro fs
    obtain ⟨name, m⟩ := hd
    simp only [runMethods]
    cases hout : (m env fs ip op).out with
    | ret b =>
      cases b
      · simpa [hout, MOut.isSucc] using ih _
      · simp [hout, MOut.isSucc]
    | exn msg =>
      simpa [hout, MOut.isSucc] using ih _

theorem runMethods_errors (env : Env) (ip op : String) (ms : List (String × Method)) :
    ∀ fs : FS, (runMethods env ip op ms fs).errors =
      (runMethods env ip op ms fs).attempted.filterMap convErrMsg := by
  induction ms with
  | nil => intro fs; simp [runMethods]
  | cons hd tl ih =>
    intro fs
    obtain ⟨name, m⟩ := hd
    simp only [runMethods]
    cases hout : (m env fs ip op).out with
    | ret b =>
      cases b
      · simpa [hout, convErrMsg] using ih _
      · simp [hout, convErrMsg]
    | exn msg =>
      simpa [hout, convErrMsg] using ih _

theorem runMethods_calls (env : Env) (ip op : String) (ms : List (String × Method))
    (hms : ∀ p ∈ ms, ∀ fs : FS, ∀ c ∈ ((p.2 : Method) env fs ip op).calls, c.timeoutSec = 120) :
    ∀ fs : FS, ∀ c ∈ (runMethods env ip op ms fs).calls, c.timeoutSec = 120 := by
  induction ms with
  | nil => intro fs; simp [runMethods]
  | cons hd tl ih =>
    intro fs
    obtain ⟨name, m⟩ := hd
    have hhd := hms (name, m) (List.mem_cons_self _ _)
    have htl : ∀ p ∈ tl, ∀ fs : FS, ∀ c ∈ ((p.2 : Method) env fs ip op).calls,
        c.timeoutSec = 120 := fun p hp => hms p (List.mem_cons_of_mem _ hp)
    simp only [runMethods]
    cases hout : (m env fs ip op).out with
    | ret b =>
      cases b
      · simp only [hout]
        intro c hc
        rcases List.mem_append.mp hc with h | h
        · exact hhd fs c h
        · exact ih htl _ c h
      · simp only [hout]
        intro c hc
        exact hhd fs c hc
    | exn msg =>
      simp only [hout]
      intro c hc
      rcases List.mem_append.mp hc with h | h
      · exact hhd fs c h
      · exact ih htl _ c h

theorem runMethods_success_output (env : Env) (ip op : String) (ms : List (String × Method))
    (hms : ∀ p ∈ ms, ∀ fs : FS, ((p.2 : Method) env fs ip op).out = .ret true →
      0 < fsGetD ((p.2 : Method) env fs ip op).fs op) :
    ∀ fs : FS, (runMethods env ip op ms fs).success = true →
      0 < fsGetD (runMethods env ip op ms fs).fs op := by
  induction ms with
  | nil => intro fs; simp [runMethods]
  | cons hd tl ih =>
    intro fs
    obtain ⟨name, m⟩ := hd
    have hhd := hms (name, m) (List.mem_cons_self _ _)
    have htl : ∀ p ∈ tl, ∀ fs : FS, ((p.2 : Method) env fs ip op).out = .ret true →
        0 < fsGetD ((p.2 : Method) env fs ip op).fs op :=
      fun p hp => hms p (List.mem_cons_of_mem _ hp)
    simp only [runMethods]
    cases hout : (m env fs ip op).out with
    | ret b =>
      cases b
      · simp only [hout]
        intro h
        exact ih htl _ h
      · simp only [hout]
        intro _
        exact hhd fs hout
    | exn msg =>
      simp only [hout]
      intro h
      exact ih htl _ h

/-! ### Per-converter facts -/

theorem convert_with_pandoc_calls (env : Env) (fs : FS) (ip op : String) :
    ∀ c ∈ (convert_with_pandoc env fs ip op).calls, c.timeoutSec = 120 := by
  intro c hc
  unfold convert_with_pandoc at hc
  dsimp only at hc
  split at hc
  · simp at hc
  · split at hc
    · simp at hc; rw [hc]
    · split at hc <;> (simp at hc; rw [hc])

theorem convert_with_libreoffice_calls (env : Env) (fs : FS) (ip op : String) :
    ∀ c ∈ (convert_with_libreoffice env fs ip op).calls, c.timeoutSec = 120 := by
  intro c hc
  unfold convert_with_libreoffice at hc
  dsimp only at hc
  split at hc
  · simp at hc
  · split at hc
    · simp at hc; rw [hc]
    · split at hc
      · simp at hc; rw [hc]
      · split at hc
        · simp at hc; rw [hc]
        · split at hc <;> (simp at hc; rw [hc])

theorem convert_with_unoconv_calls (env : Env) (fs : FS) (ip op : String) :
    ∀ c ∈ (convert_with_unoconv env fs ip op).calls, c.timeoutSec = 120 := by
  intro c hc
  unfold convert_with_unoconv at hc
  dsimp only at hc
  split at hc
  · simp at hc
  · split at hc
    · simp at hc; rw [hc]
    · split at hc <;> (simp at hc; rw [hc])

theorem convert_with_python_docx_calls (env : Env) (fs : FS) (ip op : String) :
    ∀ c ∈ (convert_with_python_docx env fs ip op).calls, c.timeoutSec = 120 := by
  intro c hc
  unfold convert_with_python_docx at hc
  dsimp only at hc
  split at hc
  · simp at hc
  · split at hc <;> simp at hc

theorem convert_with_pandoc_output (env : Env) (fs : FS) (ip op : String)
    (h : (convert_with_pandoc env fs ip op).out = .ret true) :
    0 < fsGetD (convert_with_pandoc env fs ip op).fs op := by
  revert h
  unfold convert_with_pandoc
  dsimp only
  split
  · intro h; simp at h
  · split
    · intro h; simp at h
    · split
      · intro h; simp at h
      · intro h
        simp only [MOut.ret.injEq, Bool.and_eq_true, decide_eq_true_eq] at h
        exact h.2

theorem convert_with_libreoffice_output (env : Env) (fs : FS) (ip op : String)
    (h : (convert_with_libreoffice env fs ip op).out = .ret true) :
    0 < fsGetD (convert_with_libreoffice env fs ip op).fs op := by
  revert h
  unfold convert_with_libreoffice
  dsimp only
  split
  · intro h; simp at h
  · split
    · intro h; simp at h
    · split
      · intro h; simp at h
      · split
        · intro h
          simp only [MOut.ret.injEq, decide_eq_true_eq] at h
          exact h
        · split
          · intro h
            simp only [MOut.ret.injEq, decide_eq_true_eq] at h
            exact h
          · intro h; simp at h

theorem convert_with_unoconv_output (env : Env) (fs : FS) (ip op : String)
    (h : (convert_with_unoconv env fs ip op).out = .ret true) :
    0 < fsGetD (convert_with_unoconv env fs ip op).fs op := by
  revert h
  unfold convert_with_unoconv
  dsimp only
  split
  · intro h; simp at h
  · split
    · intro h; simp at h
    · split
      · intro h; simp at h
      · intro h
        simp only [MOut.ret.injEq, Bool.and_eq_true, decide_eq_true_eq] at h
        exact h.2

theorem convert_with_python_docx_output (env : Env) (fs : FS) (ip op : String)
    (h : (convert_with_python_docx env fs ip op).out = .ret true) :
    0 < fsGetD (convert_with_python_docx env fs ip op).fs op := by
  revert h
  unfold convert_with_python_docx
  dsimp only
  split
  · intro h; simp at h
  · split
    · intro h; simp at h
    · intro h
      simp only [MOut.ret.injEq, Bool.and_eq_true, decide_eq_true_eq] at h
      exact h.2

theorem conversion_methods_calls (env : Env) (ip op : String) :
    ∀ p ∈ conversion_methods, ∀ fs : FS,
      ∀ c ∈ ((p.2 : Method) env fs ip op).calls, c.timeoutSec = 120 := by
  intro p hp
  simp only [conversion_methods, List.mem_cons, List.not_mem_nil, or_false] at hp
  rcases hp with h | h | h | h <;> subst h
  · exact fun fs => convert_with_pandoc_calls env fs ip op
  · exact fun fs => convert_with_libreoffice_calls env fs ip op
  · exact fun fs => convert_with_unoconv_calls env fs ip op
  · exact fun fs => convert_with_python_docx_calls env fs ip op

theorem conversion_methods_output (env : Env) (ip op : String) :
    ∀ p ∈ conversion_methods, ∀ fs : FS,
      ((p.2 : Method) env fs ip op).out = .ret true →
        0 < fsGetD ((p.2 : Method) env fs ip op).fs op := by
  intro p hp
  simp only [conversion_methods, List.mem_cons, List.not_mem_nil, or_false] at hp
  rcases hp with h | h | h | h <;> subst h
  · exact fun fs => convert_with_pandoc_output env fs ip op
  · exact fun fs => convert_with_libreoffice_output env fs ip op
  · exact fun fs => convert_with_unoconv_output env fs ip op
  · exact fun fs => convert_with_python_docx_output env fs ip op

/-! ### String-level lemmas -/

theorem osPathJoin_uploads_ne_outputs (a b : String) :
    osPathJoin "uploads" a ≠ osPathJoin "outputs" b := by
  intro h
  have h2 : (osPathJoin "uploads" a).data.head? = (osPathJoin "outputs" b).data.head? :=
    congrArg (fun s => s.data.head?) h
  have hu : (osPathJoin "uploads" a).data.head? = some 'u' := rfl
  have ho : (osPathJoin "outputs" b).data.head? = some 'o' := rfl
  rw [hu, ho] at h2
  exact absurd (Option.some.inj h2) (by decide)

theorem splitFirst_sep_append (sep : Char) (a b : List Char) (ha : ∀ x ∈ a, x ≠ sep) :
    splitFirst sep (a ++ sep :: b) = some (a, b) := by
  induction a with
  | nil => simp [splitFirst]
  | cons c t ih =>
    have hc : c ≠ sep := ha c (by simp)
    have ht : ∀ x ∈ t, x ≠ sep := fun x hx => ha x (by simp [hx])
    simp [splitFirst, hc, ih ht]

theorem pySplitMax_two (sep : Char) (a b c : List Char)
    (ha : ∀ x ∈ a, x ≠ sep) (hb : ∀ x ∈ b, x ≠ sep) :
    pySplitMax sep 2 (a ++ sep :: (b ++ sep :: c)) = [a, b, c] := by
  show pySplitMax sep (1 + 1) _ = _
  rw [pySplitMax, splitFirst_sep_append sep a _ ha]
  show _ :: pySplitMax sep (0 + 1) _ = _
  rw [pySplitMax, splitFirst_sep_append sep b _ hb]
  rfl

theorem splitextStr_append (f : String) :
    (splitextStr f).1 ++ (splitextStr f).2 = f := by
  have h : ((splitextStr f).1 ++ (splitextStr f).2).data = f.data := by
    rw [String.data_append]
    unfold splitextStr splitextChars
    cases hd : lastIdxOf '.' f.data with
    | none => simp
    | some d =>
      dsimp only
      split
      · simp [List.take_append_drop]
      · simp
  exact congrArg String.mk h

theorem outputFilename_data (env : Env) (f : String) :
    (outputFilename env f).data =
      (toString env.timestamp).data ++
        '_' :: (env.uuid.data ++ '_' :: ((splitextStr f).1 ++ ".pdf").data) := by
  simp [outputFilename, fileId, String.data_append, List.append_assoc]

theorem pyJoin_four_ge (a b c d : String) :
    9 ≤ (pyJoin " | " [a, b, c, d]).length := by
  simp only [pyJoin, String.length_append]
  have h3 : (" | " : String).length = 3 := rfl
  omega

/-! ### Cleanup characterization -/

theorem cleanupFolder_eq (thr : ℚ) (l : List String) :
    cleanupFolder thr l =
      (l.filter (fun n => !(sweepDeletes thr n)), l.countP (sweepDeletes thr)) := by
  induction l with
  | nil => simp [cleanupFolder]
  | cons name rest ih =>
    simp only [cleanupFolder, ih]
    cases hp : pyIntParse (firstField name.data) with
    | none =>
      simp [List.filter_cons, List.countP_cons, sweepDeletes, hp]
    | some t =>
      by_cases ht : (t : ℚ) < thr
      · simp [List.filter_cons, List.countP_cons, sweepDeletes, hp, ht]
      · simp [List.filter_cons, List.countP_cons, sweepDeletes, hp, ht]

theorem fsGet_pos (fs : FS) (p : String) (h : 0 < fsGetD fs p) :
    ∃ n, fsGet fs p = some n ∧ 0 < n := by
  unfold fsGetD at h
  cases hg : fsGet fs p with
  | none => rw [hg] at h; simp at h
  | some n => rw [hg] at h; exact ⟨n, rfl, by simpa using h⟩

theorem fsExists_of_pos (fs : FS) (p : String) (h : 0 < fsGetD fs p) :
    fsExists fs p = true := by
  obtain ⟨n, hg, _⟩ := fsGet_pos fs p h
  unfold fsExists
  rw [hg]
  rfl

/-! ### Concrete environments used as witnesses -/

/-- A tool whose subprocess exits 0 without touching the filesystem. -/
def toolNoop : List String → FS → ToolRun :=
  fun _ fs => ⟨fs, .ok (0, "")⟩

/-- A tool whose subprocess exits 0 after writing `n` bytes at `p`. -/
def toolWrite (p : String) (n : Nat) : List String → FS → ToolRun :=
  fun _ fs => ⟨fsSet fs p n, .ok (0, "")⟩

/-- A well-behaved world: pandoc is installed and writes a 5-byte PDF;
nothing else is installed. -/
def envGood : Env :=
  { timestamp := 100, uuid := "u"
    pandocInstalled := true
    pandocRun := toolWrite "outputs/100_u_a.pdf" 5
    libreofficeExec := none
    libreofficeRun := toolNoop
    unoconvInstalled := false
    unoconvRun := toolNoop
    docxLibsInstalled := false
    docxBuild := fun fs _ _ => (fs, none) }

/-- A world where every converter runs without raising but reports
failure by returning `False`: pandoc and unoconv exit 0 producing
nothing, libreoffice exits 0 leaving a zero-byte output, and the
python-docx build completes but its output is empty. -/
def envAllFalse : Env :=
  { timestamp := 100, uuid := "u"
    pandocInstalled := true
    pandocRun := toolNoop
    libreofficeExec := some "soffice"
    libreofficeRun := toolWrite "outputs/100_u_a.pdf" 0
    unoconvInstalled := true
    unoconvRun := toolNoop
    docxLibsInstalled := true
    docxBuild := fun fs _ _ => (fs, none) }

/-- A world where pandoc exits 0 but leaves a zero-byte output file and
every other converter raises at once. -/
def envEmptyOut : Env :=
  { timestamp := 100, uuid := "u"
    pandocInstalled := true
    pandocRun := toolWrite "outputs/100_u_a.pdf" 0
    libreofficeExec := none
    libreofficeRun := toolNoop
    unoconvInstalled := false
    unoconvRun := toolNoop
    docxLibsInstalled := false
    docxBuild := fun fs _ _ => (fs, none) }

/-- A valid upload request: a 10-byte `a.docx`. -/
def reqA : Request := ⟨true, "a.docx", 10⟩

/-! ### Claims -/

/-- C1: for every upload request, the convert operation attempts the
converters in the fixed priority order pandoc, libreoffice, unoconv,
python-docx-pypdf, invoking each at most once (the attempted names are a
duplicate-free prefix of that list), and stops attempting further
converters as soon as one reports success: every attempt except possibly
the last one did not return `True`. -/
theorem claim_C1 (env : Env) (req : Request) (fs0 : FS) :
    ((convert_file env req fs0).attempted.map Prod.fst) <+:
        ["pandoc", "libreoffice", "unoconv", "python-docx-pypdf"] ∧
    ((convert_file env req fs0).attempted.map Prod.fst).Nodup ∧
    ∀ p ∈ (convert_file env req fs0).attempted.dropLast, p.2.isSucc = false := by
  have hattempted : (convert_file env req fs0).attempted = [] ∨
      ∃ ip opath fs1, (convert_file env req fs0).attempted =
        (runMethods env ip opath conversion_methods fs1).attempted := by
    unfold convert_file
    dsimp only
    split
    · exact Or.inl rfl
    · split
      · exact Or.inl rfl
      · split
        · split
          · exact Or.inr ⟨_, _, _, rfl⟩
          · exact Or.inr ⟨_, _, _, rfl⟩
        · exact Or.inl rfl
  rcases hattempted with h | ⟨ip, opath, fs1, h⟩
  · rw [h]
    exact ⟨⟨["pandoc", "libreoffice", "unoconv", "python-docx-pypdf"], by simp⟩,
      by simp, by simp⟩
  · rw [h]
    have hnames := runMethods_names env ip opath conversion_methods fs1
    have hlit : conversion_methods.map Prod.fst =
        ["pandoc", "libreoffice", "unoconv", "python-docx-pypdf"] := rfl
    rw [hlit] at hnames
    refine ⟨hnames, ?_, runMethods_dropLast env ip opath conversion_methods fs1⟩
    exact List.Nodup.sublist hnames.sublist (by decide)

theorem claim_C1_witness :
    ((convert_file envGood reqA []).attempted.map Prod.fst) <+:
      ["pandoc", "libreoffice", "unoconv", "python-docx-pypdf"] :=
  (claim_C1 envGood reqA []).1

/-- C2 counterexample: in a world where all four converters are attempted
and each reports failure by returning `False` (raising no exception), the
500 response's message is the bare prefix with no reasons at all, although
four converters were attempted — so the message is not the join of one
reason per attempted converter. -/
theorem claim_C2_counterexample :
    (convert_file envAllFalse reqA []).status = 500 ∧
    (convert_file envAllFalse reqA []).attempted.length = 4 ∧
    (convert_file envAllFalse reqA []).body = .err "All conversion methods failed: " ∧
    ¬ ∃ reasons : List String,
        reasons.length = (convert_file envAllFalse reqA []).attempted.length ∧
        (convert_file envAllFalse reqA []).body =
          .err ("All conversion methods failed: " ++ pyJoin " | " reasons) := by
  refine ⟨by decide, by decide, by decide, ?_⟩
  rintro ⟨reasons, hlen, hbody⟩
  have hb : (convert_file envAllFalse reqA []).body =
      .err "All conversion methods failed: " := by decide
  rw [hb] at hbody
  simp only [CBody.err.injEq] at hbody
  have hlen4 : reasons.length = 4 := by
    have h4 : (convert_file envAllFalse reqA []).attempted.length = 4 := by decide
    rw [h4] at hlen
    exact hlen
  rcases reasons with _ | ⟨a, _ | ⟨b, _ | ⟨c, _ | ⟨d, rest⟩⟩⟩⟩ <;> simp at hlen4
  subst hlen4
  have hlength := congrArg String.length hbody
  rw [String.length_append] at hlength
  have h9 := pyJoin_four_ge a b c d
  omega

/-- C2 amended: whenever the convert operation returns HTTP 500, the
body's error message is the prefix "All conversion methods failed: "
followed by the failure reasons of exactly those attempts that raised an
exception, in attempt order, joined with " | " — attempts that merely
returned `False` contribute no reason. -/
theorem claim_C2_amended (env : Env) (req : Request) (fs0 : FS)
    (h : (convert_file env req fs0).status = 500) :
    (convert_file env req fs0).body =
      .err ("All conversion methods failed: " ++
        pyJoin " | " ((convert_file env req fs0).attempted.filterMap convErrMsg)) := by
  revert h
  unfold convert_file
  dsimp only
  split
  · intro h; simp at h
  · split
    · intro h; simp at h
    · split
      · split
        · intro h; simp at h
        · intro _
          dsimp only
          rw [runMethods_errors]
      · intro h; simp at h

theorem claim_C2_amended_witness :
    (convert_file envAllFalse reqA []).body =
      .err ("All conversion methods failed: " ++
        pyJoin " | " ((convert_file envAllFalse reqA []).attempted.filterMap convErrMsg)) :=
  claim_C2_amended envAllFalse reqA [] (by decide)

/-- C3: the cleanup operation deletes exactly those files whose name's
first `_`-separated field parses as an integer strictly below the current
time minus 24 hours (`sweepDeletes`), leaves every other file unchanged
(the remaining listings are the filtered originals, in order), and
returns the count of deleted files. -/
theorem claim_C3 (now : ℚ) (uploads outputs : List String) :
    (cleanup now uploads outputs).1.1 =
        uploads.filter (fun n => !(sweepDeletes (now - (24 * 60 * 60)) n)) ∧
    (cleanup now uploads outputs).1.2 =
        outputs.filter (fun n => !(sweepDeletes (now - (24 * 60 * 60)) n)) ∧
    (cleanup now uploads outputs).2 =
        uploads.countP (sweepDeletes (now - (24 * 60 * 60))) +
          outputs.countP (sweepDeletes (now - (24 * 60 * 60))) := by
  unfold cleanup
  dsimp only
  rw [cleanupFolder_eq, cleanupFolder_eq]
  exact ⟨rfl, rfl, rfl⟩

/-- C4: for every accepted upload with original filename `f`, the saved
input file is `uploads/{timestamp}_{uuid}_{f}` and the derived output
name keeps the `{timestamp}_{uuid}` prefix with the extension of `f`
(in the `os.path.splitext` sense) replaced by `.pdf`: the output name is
the prefix followed by the extensionless root of `f` plus `.pdf`, where
root and extension recombine to `f`. -/
theorem claim_C4 (env : Env) (req : Request) (fs0 : FS) (h1 : req.hasFilePart = true)
    (h2 : req.filename ≠ "") (h3 : allowedExt req.filename = true) :
    (convert_file env req fs0).savedInput =
        some (osPathJoin "uploads"
          (toString env.timestamp ++ "_" ++ env.uuid ++ "_" ++ req.filename)) ∧
    (convert_file env req fs0).outputName =
        some (toString env.timestamp ++ "_" ++ env.uuid ++ "_" ++
          (splitextStr req.filename).1 ++ ".pdf") ∧
    (splitextStr req.filename).1 ++ (splitextStr req.filename).2 = req.filename := by
  refine ⟨?_, ?_, splitextStr_append req.filename⟩ <;>
  · unfold convert_file
    rw [if_neg (by simp [h1]), if_neg h2, if_pos h3]
    dsimp only
    split <;> rfl

theorem claim_C4_witness :
    (convert_file envGood reqA []).savedInput =
        some (osPathJoin "uploads"
          (toString envGood.timestamp ++ "_" ++ envGood.uuid ++ "_" ++ reqA.filename)) ∧
    (convert_file envGood reqA []).outputName =
        some (toString envGood.timestamp ++ "_" ++ envGood.uuid ++ "_" ++
          (splitextStr reqA.filename).1 ++ ".pdf") ∧
    (splitextStr reqA.filename).1 ++ (splitextStr reqA.filename).2 = reqA.filename :=
  claim_C4 envGood reqA [] (by decide) (by decide) (by decide)

/-- C5 counterexample: starting from an empty filesystem, a run in which
pandoc exits 0 but writes only a zero-byte output (so it returns `False`)
and every other converter raises ends with HTTP 500 — a failure — and yet
the derived output file remains on disk, so it is not the case that only
the derived output file of a successful conversion remains for the sweep. -/
theorem claim_C5_counterexample :
    fsExists ([] : FS) "outputs/100_u_a.pdf" = false ∧
    (convert_file envEmptyOut reqA []).status = 500 ∧
    fsExists (convert_file envEmptyOut reqA []).fs "outputs/100_u_a.pdf" = true := by
  exact ⟨by decide, by decide, by decide⟩

/-- C5 amended: for every accepted upload, the saved input file is
deleted before the convert operation returns, on both the success and the
failure path; on success the derived output file remains (non-empty), but
on failure a partially written derived output file may remain as well. -/
theorem claim_C5_amended (env : Env) (req : Request) (fs0 : FS) (h1 : req.hasFilePart = true)
    (h2 : req.filename ≠ "") (h3 : allowedExt req.filename = true) :
    fsExists (convert_file env req fs0).fs
        (osPathJoin "uploads" (inputFilename env req.filename)) = false ∧
    ((convert_file env req fs0).status = 200 →
      fsExists (convert_file env req fs0).fs
        (osPathJoin "outputs" (outputFilename env req.filename)) = true) := by
  unfold convert_file
  rw [if_neg (by simp [h1]), if_neg h2, if_pos h3]
  dsimp only
  split
  next hsucc =>
    constructor
    · exact fsExists_fsRemove_self _ _
    · intro _
      dsimp only
      have hout := runMethods_success_output env
        (osPathJoin "uploads" (inputFilename env req.filename))
        (osPathJoin "outputs" (outputFilename env req.filename))
        conversion_methods
        (conversion_methods_output env _ _) _ hsucc
      have hne : osPathJoin "outputs" (outputFilename env req.filename) ≠
          osPathJoin "uploads" (inputFilename env req.filename) :=
        Ne.symm (osPathJoin_uploads_ne_outputs _ _)
      apply fsExists_of_pos
      unfold fsGetD
      rw [fsGet_fsRemove_ne _ _ _ hne]
      exact hout
  next hsucc =>
    constructor
    · dsimp only
      split
      next hex => exact fsExists_fsRemove_self _ _
      next hex => simpa using hex
    · intro h
      simp at h

theorem claim_C5_amended_witness :
    fsExists (convert_file envGood reqA []).fs
        (osPathJoin "uploads" (inputFilename envGood reqA.filename)) = false ∧
    ((convert_file envGood reqA []).status = 200 →
      fsExists (convert_file envGood reqA []).fs
        (osPathJoin "outputs" (outputFilename envGood reqA.filename)) = true) :=
  claim_C5_amended envGood reqA [] (by decide) (by decide) (by decide)

/-- C6: for every original filename `f` (including names containing
underscores), stripping the first two `_`-separated fields from the
generated output filename — as `download_file` does via
`filename.split('_', 2)[2]` — recovers exactly the extensionless root of
`f` with a `.pdf` extension, provided the timestamp and random id
themselves contain no underscore (true of `int(time.time())` and
`uuid.uuid4()`). -/
theorem claim_C6 (env : Env) (f : String)
    (hts : ∀ x ∈ (toString env.timestamp).data, x ≠ '_')
    (hu : ∀ x ∈ env.uuid.data, x ≠ '_') :
    List.get? (pySplitMax '_' 2 (outputFilename env f).data) 2 =
      some ((splitextStr f).1 ++ ".pdf").data := by
  rw [outputFilename_data, pySplitMax_two '_' _ _ _ hts hu]
  rfl

theorem claim_C6_witness :
    List.get? (pySplitMax '_' 2 (outputFilename envGood "my_file.docx").data) 2 =
      some ((splitextStr "my_file.docx").1 ++ ".pdf").data :=
  claim_C6 envGood "my_file.docx" (by decide) (by decide)

/-- C7: every subprocess invocation performed during any run of the
convert operation carries `timeout=120` seconds (and these invocations,
recorded in the call trace, are the only external executions the
operation makes). -/
theorem claim_C7 (env : Env) (req : Request) (fs0 : FS) :
    ∀ c ∈ (convert_file env req fs0).calls, c.timeoutSec = 120 := by
  intro c hc
  unfold convert_file at hc
  dsimp only at hc
  split at hc
  · simp at hc
  · split at hc
    · simp at hc
    · split at hc
      · split at hc
        · exact runMethods_calls env _ _ conversion_methods
            (conversion_methods_calls env _ _) _ c hc
        · exact runMethods_calls env _ _ conversion_methods
            (conversion_methods_calls env _ _) _ c hc
      · simp at hc

theorem claim_C7_witness :
    (⟨["pandoc", "uploads/100_u_a.docx", "--pdf-engine=xelatex", "-o",
        "outputs/100_u_a.pdf"], 120⟩ : SubprocessCall).timeoutSec = 120 :=
  claim_C7 envGood reqA [] _ (by decide)

/-- C8: whenever the convert operation returns a success response, the
output file named in the returned `download_url` exists in the outputs
folder with size strictly greater than zero. -/
theorem claim_C8 (env : Env) (req : Request) (fs0 : FS) (fn url : String)
    (h : (convert_file env req fs0).body = .success fn url) :
    ∃ name n, url = "/download/" ++ name ∧
      fsGet (convert_file env req fs0).fs (osPathJoin "outputs" name) = some n ∧ 0 < n := by
  revert h
  unfold convert_file
  dsimp only
  split
  · intro h; simp at h
  · split
    · intro h; simp at h
    · split
      · split
        next hsucc =>
          intro h
          simp only [CBody.success.injEq] at h
          obtain ⟨-, hurl⟩ := h
          refine ⟨outputFilename env req.filename, ?_⟩
          have hout := runMethods_success_output env
            (osPathJoin "uploads" (inputFilename env req.filename))
            (osPathJoin "outputs" (outputFilename env req.filename))
            conversion_methods
            (conversion_methods_output env _ _) _ hsucc
          have hne : osPathJoin "outputs" (outputFilename env req.filename) ≠
              osPathJoin "uploads" (inputFilename env req.filename) :=
            Ne.symm (osPathJoin_uploads_ne_outputs _ _)
          have hpos : 0 < fsGetD
              (fsRemove (runMethods env
                (osPathJoin "uploads" (inputFilename env req.filename))
                (osPathJoin "outputs" (outputFilename env req.filename))
                conversion_methods
                (fsSet fs0 (osPathJoin "uploads" (inputFilename env req.filename))
                  req.content)).fs
                (osPathJoin "uploads" (inputFilename env req.filename)))
              (osPathJoin "outputs" (outputFilename env req.filename)) := by
            unfold fsGetD
            rw [fsGet_fsRemove_ne _ _ _ hne]
            exact hout
          obtain ⟨n, hg, hn⟩ := fsGet_pos _ _ hpos
          exact ⟨n, hurl.symm, hg, hn⟩
        next hsucc =>
          intro h; simp at h
      · intro h; simp at h

theorem claim_C8_witness :
    ∃ name n, "/download/100_u_a.pdf" = "/download/" ++ name ∧
      fsGet (convert_file envGood reqA []).fs (osPathJoin "outputs" name) = some n ∧ 0 < n :=
  claim_C8 envGood reqA [] "a.pdf" "/download/100_u_a.pdf" (by decide)

/-- C9: a request with no file part, an empty filename, or a filename not
ending in `.doc`/`.docx` (case-insensitively) gets HTTP 400, leaves the
filesystem untouched, saves nothing, and attempts no converter and no
subprocess. -/
theorem claim_C9 (env : Env) (req : Request) (fs0 : FS)
    (h : req.hasFilePart = false ∨ req.filename = "" ∨ allowedExt req.filename = false) :
    (convert_file env req fs0).status = 400 ∧
    (convert_file env req fs0).fs = fs0 ∧
    (convert_file env req fs0).attempted = [] ∧
    (convert_file env req fs0).calls = [] ∧
    (convert_file env req fs0).savedInput = none := by
  unfold convert_file
  rcases h with h | h | h
  · rw [if_pos h]; exact ⟨rfl, rfl, rfl, rfl, rfl⟩
  · by_cases hf : req.hasFilePart = false
    · rw [if_pos hf]; exact ⟨rfl, rfl, rfl, rfl, rfl⟩
    · rw [if_neg hf, if_pos h]; exact ⟨rfl, rfl, rfl, rfl, rfl⟩
  · by_cases hf : req.hasFilePart = false
    · rw [if_pos hf]; exact ⟨rfl, rfl, rfl, rfl, rfl⟩
    · rw [if_neg hf]
      by_cases he : req.filename = ""
      · rw [if_pos he]; exact ⟨rfl, rfl, rfl, rfl, rfl⟩
      · rw [if_neg he, if_neg (by simp [h])]; exact ⟨rfl, rfl, rfl, rfl, rfl⟩

theorem claim_C9_witness :
    (convert_file envGood ⟨true, "notes.txt", 3⟩ []).status = 400 ∧
    (convert_file envGood ⟨true, "notes.txt", 3⟩ []).fs = [] ∧
    (convert_file envGood ⟨true, "notes.txt", 3⟩ []).attempted = [] ∧
    (convert_file envGood ⟨true, "notes.txt", 3⟩ []).calls = [] ∧
    (convert_file envGood ⟨true, "notes.txt", 3⟩ []).savedInput = none :=
  claim_C9 envGood ⟨true, "notes.txt", 3⟩ [] (Or.inr (Or.inr (by decide)))

/-- C10: the download operation answers 404 exactly when no file of the
requested name exists in the outputs folder; when the file exists and the
name has at least two underscores (shape `a_b_rest` with `a`, `b`
underscore-free), it is served with download name `rest`, the name with
its first two `_`-separated fields removed. -/
theorem claim_C10 (fs : FS) (f : String) :
    ((download_file fs f = .notFound) ↔ fsExists fs (osPathJoin "outputs" f) = false) ∧
    (∀ a b rest : List Char, f.data = a ++ '_' :: (b ++ '_' :: rest) →
      (∀ x ∈ a, x ≠ '_') → (∀ x ∈ b, x ≠ '_') →
      fsExists fs (osPathJoin "outputs" f) = true →
      download_file fs f = .served (osPathJoin "outputs" f) (String.mk rest)) := by
  constructor
  · unfold download_file
    dsimp only
    by_cases hex : fsExists fs (osPathJoin "outputs" f) = false
    · rw [if_pos hex]
      simp [hex]
    · rw [if_neg hex]
      constructor
      · intro hm
        cases hg : List.get? (pySplitMax '_' 2 f.data) 2 with
        | some dn => rw [hg] at hm; simp at hm
        | none => rw [hg] at hm; simp at hm
      · intro hfalse; exact absurd hfalse hex
  · intro a b rest hdata ha hb hex
    unfold download_file
    dsimp only
    rw [if_neg (by simp [hex])]
    rw [hdata, pySplitMax_two '_' a b rest ha hb]
    rfl

theorem claim_C10_witness :
    download_file [("outputs/1700_u_my_report.pdf", 5)] "1700_u_my_report.pdf" =
      .served (osPathJoin "outputs" "1700_u_my_report.pdf")
        (String.mk "my_report.pdf".data) :=
  (claim_C10 [("outputs/1700_u_my_report.pdf", 5)] "1700_u_my_report.pdf").2
    "1700".data "u".data "my_report.pdf".data (by decide) (by decide) (by decide) (by decide)

end WordToPdf
